import Mathlib

/-!
InvokeCompilerPass: a shallow embedding of `InvokeCompilerPass.cpp`, that is the discovery of Visual Studio
installations through the `VS<nnn>COMNTOOLS` environment variables, the
derivation of the Visual C++ binary directory, and the assembly of the argument
vector handed to `InvokeCompilerPassW`.

Conventions of the embedding.
* `std::wstring` is `String`, one `Char` standing for one `wchar_t`.
* `std::map<int, T>` is the list of its entries in strictly increasing key
  order (`StdMap`), which is the order a range-for loop and `crbegin` see.
* `std_filesystem::path` is the list of its elements, see `path`.
* The process environment, the state of the filesystem, the host word size
  (`kIsWin64`) and the `InvokeCompilerPassW` entry point of `c1.dll` are
  parameters.
* `assert` is the standard macro of a build without `NDEBUG`: a failed
  assertion ends the program. Functions that contain one return
  `Except assertion _`.
-/

namespace InvokeCompilerPass

/-! ## Library types -/

/-- The type `std::wstring`. -/
abbrev wstring := String

/-- The type `std::map<int, T>`, as its entries in iteration order. -/
abbrev StdMap (α : Type) := List (Int × α)

/-- The invariant of `std::map`: keys strictly increasing along the iteration. -/
def StdMap.ordered {α : Type} (m : StdMap α) : Prop :=
  (m.map Prod.fst).Pairwise (fun a b => a < b)

/-- The member `std::map::try_emplace`: the entry is inserted at its place in
key order when the key is absent, and the map is left as it is when the key is
present. -/
def try_emplace {α : Type} (k : Int) (v : α) : StdMap α → StdMap α
  | [] => [(k, v)]
  | (k', v') :: rest =>
    if k < k' then (k, v) :: (k', v') :: rest
    else if k = k' then (k', v') :: rest
    else (k', v') :: try_emplace k v rest

/-- The type `std_filesystem::path`, as the sequence of the elements that
iterating the path yields. A path written with a final separator, such as
`R\Common7\Tools\`, has "." as its last element: that is what the assertion in
`FilterFoundPathsToAllWithVisualCppInstalled` tests. -/
abbrev path := List String

/-- The member `path::filename`: the last element, empty for the empty path. -/
def filename (p : path) : String := p.getLast?.getD ""

/-- The member `path::parent_path`: all elements but the last. -/
def parent_path (p : path) : path := p.dropLast

/-- The member `path::append` for a single name: one more element. -/
def append (p : path) (name : String) : path := p ++ [name]

/-- The constant `_MAX_PATH` of `<cstdlib>`. -/
def MAX_PATH : Nat := 260

/-- The constant `ERANGE` of `<cerrno>`. -/
def ERANGE : Nat := 34

/-- What a call of `_wgetenv_s` leaves behind: the returned `errno_t`, the
required size written through the first parameter, and the buffer read as a
string. -/
structure getenv_result where
  err : Nat
  required_size : Nat
  buffer : wstring
deriving DecidableEq, Repr

/-- The function `_wgetenv_s(&required, buffer, name)` on a buffer of
`bufferCount` wide characters that was zeroed before the call. The required
size is 0 when the variable is not found and the length of the value plus the
terminator otherwise; a value that does not fit yields `ERANGE` and leaves the
buffer empty. -/
def wgetenv_s (env : String → Option wstring) (bufferCount : Nat) (name : String) :
    getenv_result :=
  match env name with
  | none => { err := 0, required_size := 0, buffer := "" }
  | some value =>
    if bufferCount < value.length + 1 then
      { err := ERANGE, required_size := value.length + 1, buffer := "" }
    else
      { err := 0, required_size := value.length + 1, buffer := value }

/-- The assertions of the program, named by what they guard. -/
inductive assertion where
  /-- The text `visualStudioCommonToolsPath.filename()==L"."`. -/
  | final_slash
  /-- The text `m_errors_returned == -1`. -/
  | not_reset
  /-- The text `!"CL pulled the UI module rug out from underneath me :("`. -/
  | ui_module_rug
deriving DecidableEq, Repr

deriving instance DecidableEq for Except

/-! ## c_visual_studio_common_tools_path_finder -/

/-- The enumerator `k_visual_studio_version_search_start`. -/
def k_visual_studio_version_search_start : Int := 11

/-- The enumerator `k_visual_studio_version_search_end`. -/
def k_visual_studio_version_search_end : Int := 15

/-- The data members of `c_visual_studio_common_tools_path_finder`. The source
keeps each validated binary directory as the string of its path and
`GetLatestVisualCppBinPath` makes a path of it again; the embedding keeps the
path. -/
structure c_visual_studio_common_tools_path_finder where
  m_found_no_paths : Bool
  m_found_visual_studio_common_tools_paths : StdMap wstring
  m_found_visual_cpp_bin_paths : StdMap path
deriving DecidableEq, Repr

namespace c_visual_studio_common_tools_path_finder

/-- The constructor. -/
def new : c_visual_studio_common_tools_path_finder :=
  { m_found_no_paths := false
    m_found_visual_studio_common_tools_paths := []
    m_found_visual_cpp_bin_paths := [] }

/-- The function `ShortVsVersionToFull`. -/
def ShortVsVersionToFull (version : Int) : Int := version * 10

/-- The name of the environment variable read for `version`. -/
def envName (version : Int) : String :=
  ("VS" ++ toString (ShortVsVersionToFull version)) ++ "COMNTOOLS"

/-- The values `version` takes in the loop of `FindByGetEnvUsingShotguns`. -/
def search_versions : List Int :=
  (List.range (k_visual_studio_version_search_end + 1
      - k_visual_studio_version_search_start).toNat).map
    (fun i => k_visual_studio_version_search_start + (i : Int))

/-- One round of the loop of `FindByGetEnvUsingShotguns`. -/
def scan_version (env : String → Option wstring) (found : StdMap wstring) (version : Int) :
    StdMap wstring :=
  let fullVersion := ShortVsVersionToFull version
  let r := wgetenv_s env MAX_PATH (envName version)
  if r.err != 0 || r.required_size == 0 then found
  else try_emplace fullVersion r.buffer found

/-- The function `FindByGetEnvUsingShotguns`. -/
def FindByGetEnvUsingShotguns (env : String → Option wstring)
    (self : c_visual_studio_common_tools_path_finder) :
    c_visual_studio_common_tools_path_finder :=
  let found := search_versions.foldl (scan_version env)
    self.m_found_visual_studio_common_tools_paths
  { self with
    m_found_visual_studio_common_tools_paths := found
    m_found_no_paths := found.isEmpty }

/-- The function `GetLatestVisualCppBinPath`: the returned flag and `outPath`
after the call. -/
def GetLatestVisualCppBinPath (self : c_visual_studio_common_tools_path_finder)
    (outPath : path) : Bool × path :=
  match self.m_found_visual_cpp_bin_paths.getLast? with
  | some last => (true, last.2)
  | none => (false, outPath)

/-- The function `FindAllPaths`: the returned flag and the finder after the
call. -/
def FindAllPaths (env : String → Option wstring)
    (self : c_visual_studio_common_tools_path_finder) :
    Bool × c_visual_studio_common_tools_path_finder :=
  let self1 :=
    if self.m_found_visual_studio_common_tools_paths.isEmpty && self.m_found_no_paths == false
    then FindByGetEnvUsingShotguns env self
    else self
  (!self1.m_found_visual_studio_common_tools_paths.isEmpty, self1)

/-- The binary directory that `FilterFoundPathsToAllWithVisualCppInstalled`
computes from a common-tools path. -/
def visualCppBinPath (kIsWin64 : Bool) (visualStudioCommonToolsPath : path) : path :=
  let p := parent_path (parent_path (parent_path visualStudioCommonToolsPath))
  let p := append p "VC"
  let p := append p "bin"
  if kIsWin64 then append p "amd64" else p

/-- The loop of `FilterFoundPathsToAllWithVisualCppInstalled` over the entries
of the common-tools map, threading the map of binary directories. -/
def filter_loop (kIsWin64 : Bool) (to_path : wstring → path) (fs_exists : path → Bool) :
    List (Int × wstring) → StdMap path → Except assertion (StdMap path)
  | [], bins => .ok bins
  | pair :: rest, bins =>
    let visualStudioCommonToolsPath := to_path pair.2
    if filename visualStudioCommonToolsPath != "." then .error .final_slash
    else
      let bin := visualCppBinPath kIsWin64 visualStudioCommonToolsPath
      if !fs_exists bin then filter_loop kIsWin64 to_path fs_exists rest bins
      else filter_loop kIsWin64 to_path fs_exists rest (try_emplace pair.1 bin bins)

/-- The function `FilterFoundPathsToAllWithVisualCppInstalled`. `to_path` is
the conversion of a string to a `std_filesystem::path` and `fs_exists` is
`std_filesystem::exists` on the current filesystem. -/
def FilterFoundPathsToAllWithVisualCppInstalled (kIsWin64 : Bool)
    (env : String → Option wstring) (to_path : wstring → path) (fs_exists : path → Bool)
    (self : c_visual_studio_common_tools_path_finder) :
    Except assertion (Bool × c_visual_studio_common_tools_path_finder) :=
  let found := FindAllPaths env self
  if !found.1 then .ok (false, found.2)
  else
    match filter_loop kIsWin64 to_path fs_exists
        found.2.m_found_visual_studio_common_tools_paths
        found.2.m_found_visual_cpp_bin_paths with
    | .error a => .error a
    | .ok bins =>
      .ok (bins.isEmpty == false, { found.2 with m_found_visual_cpp_bin_paths := bins })

end c_visual_studio_common_tools_path_finder

/-! ## c_visual_cpp_bin_interface -/

/-- The data members of `c_visual_cpp_bin_interface` (the finder is passed to
`Setup`). -/
structure c_visual_cpp_bin_interface where
  m_visual_cpp_bin_path : path
  m_c1_dll_path : path
  m_cl_ui_dll_path : path
deriving DecidableEq, Repr

namespace c_visual_cpp_bin_interface

/-- The constructor. -/
def new : c_visual_cpp_bin_interface :=
  { m_visual_cpp_bin_path := [], m_c1_dll_path := [], m_cl_ui_dll_path := [] }

/-- The function `Setup`. -/
def Setup (m_fully_formed_vs_finder : c_visual_studio_common_tools_path_finder)
    (fs_exists : path → Bool) (self : c_visual_cpp_bin_interface) :
    Bool × c_visual_cpp_bin_interface :=
  let latest := m_fully_formed_vs_finder.GetLatestVisualCppBinPath self.m_visual_cpp_bin_path
  let self1 := { self with m_visual_cpp_bin_path := latest.2 }
  if !latest.1 then (false, self1)
  else
    let self2 := { self1 with m_c1_dll_path := append self1.m_visual_cpp_bin_path "c1.dll" }
    let self3 := { self2 with
      m_cl_ui_dll_path := append (append self2.m_visual_cpp_bin_path "1033") "clui.dll" }
    if !fs_exists self3.m_c1_dll_path then (false, self3)
    else if !fs_exists self3.m_cl_ui_dll_path then (false, self3)
    else (true, self3)

end c_visual_cpp_bin_interface

/-! ## c_visual_cpp_c1_interface and c_visual_cpp_c1_preprocessor_interface -/

/-- The type `HMODULE`, 0 for `nullptr`. -/
abbrev HMODULE := Nat

/-- The type `InvokeCompilerPassWFunc`: from `argc`, `argv`, the flag and the
module handle behind `phCLUIMod` to the returned `BOOL` and the handle left
behind `phCLUIMod`. -/
abbrev InvokeCompilerPassWFunc := Int → List wstring → Bool → HMODULE → Int × HMODULE

/-- What `c_visual_cpp_c1_preprocessor_interface` reads of the loaded
`c_visual_cpp_c1_interface`. -/
structure c_visual_cpp_c1_interface where
  m_cl_ui_module : HMODULE
  m_c1_invoke_compiler_pass_wide_func : InvokeCompilerPassWFunc

/-- The data members of `c_visual_cpp_c1_preprocessor_interface`; an element of
`m_invoke_func_args` is the string its pointer points to. -/
structure c_visual_cpp_c1_preprocessor_interface where
  m_invoke_func_args : List wstring
  m_defines : List wstring
  m_include_paths : List wstring
  m_file_paths : List wstring
  m_errors_returned : Int
  m_preserve_comments : Bool
deriving DecidableEq, Repr

namespace c_visual_cpp_c1_preprocessor_interface

/-- The constructor. -/
def new : c_visual_cpp_c1_preprocessor_interface :=
  { m_invoke_func_args := []
    m_defines := []
    m_include_paths := []
    m_file_paths := []
    m_errors_returned := -1
    m_preserve_comments := false }

/-- The function `FinalizeArgs`. -/
def FinalizeArgs (self : c_visual_cpp_c1_preprocessor_interface) :
    c_visual_cpp_c1_preprocessor_interface :=
  let args := self.m_invoke_func_args
  let args := args ++ ["-nologo"]
  let args := args ++ ["-E"]
  let args := args ++ ["-EP"]
  let args := if self.m_preserve_comments then args ++ ["-C"] else args
  let args := self.m_defines.foldl (fun acc str => (acc ++ ["-D"]) ++ [str]) args
  let args := self.m_include_paths.foldl (fun acc _ => acc) args
  let args := self.m_file_paths.foldl (fun acc str => (acc ++ ["-f"]) ++ [str]) args
  { self with m_invoke_func_args := args }

/-- The function `SetPreserveComments`. -/
def SetPreserveComments (value : Bool) (self : c_visual_cpp_c1_preprocessor_interface) :
    c_visual_cpp_c1_preprocessor_interface :=
  { self with m_preserve_comments := value }

/-- The call `invoke_func(argc, argv, false, &hCLUIModule)` that `Run` makes
once the arguments are assembled: the returned integer and the handle left in
`hCLUIModule`. -/
def invoke (m_c1_interface : c_visual_cpp_c1_interface)
    (self : c_visual_cpp_c1_preprocessor_interface) : Int × HMODULE :=
  let hCLUIModule := m_c1_interface.m_cl_ui_module
  let invoke_func := m_c1_interface.m_c1_invoke_compiler_pass_wide_func
  invoke_func (self.m_invoke_func_args.length : Int) self.m_invoke_func_args false hCLUIModule

/-- The function `Run`: the returned flag and the object after the call, or the
assertion that ended the program. -/
def Run (m_c1_interface : c_visual_cpp_c1_interface)
    (self : c_visual_cpp_c1_preprocessor_interface) :
    Except assertion (Bool × c_visual_cpp_c1_preprocessor_interface) :=
  if self.m_errors_returned != -1 then .error .not_reset
  else
    let self1 := FinalizeArgs self
    let r := invoke m_c1_interface self1
    let self2 := { self1 with m_errors_returned := r.1 }
    if r.2 != m_c1_interface.m_cl_ui_module then .error .ui_module_rug
    else .ok (self2.m_errors_returned == 0, self2)

/-- The function `Reset`. -/
def Reset (self : c_visual_cpp_c1_preprocessor_interface) :
    c_visual_cpp_c1_preprocessor_interface :=
  { self with
    m_invoke_func_args := []
    m_defines := []
    m_include_paths := []
    m_file_paths := []
    m_errors_returned := -1 }

/-- The function `AddDefine`. -/
def AddDefine (self : c_visual_cpp_c1_preprocessor_interface) (define : wstring) :
    c_visual_cpp_c1_preprocessor_interface :=
  { self with m_defines := self.m_defines ++ [define] }

/-- The function `AddIncludePath`. -/
def AddIncludePath (self : c_visual_cpp_c1_preprocessor_interface) (includePath : wstring) :
    c_visual_cpp_c1_preprocessor_interface :=
  { self with m_include_paths := self.m_include_paths ++ [includePath] }

/-- The function `AddFilePath`. -/
def AddFilePath (self : c_visual_cpp_c1_preprocessor_interface) (filePath : wstring) :
    c_visual_cpp_c1_preprocessor_interface :=
  { self with m_file_paths := self.m_file_paths ++ [filePath] }

/-- An interface on which the options were added through the public functions:
each define, each include path and each file path in order, and the
comment-preservation setting. -/
def with_options (defines includePaths filePaths : List wstring) (preserveComments : Bool) :
    c_visual_cpp_c1_preprocessor_interface :=
  SetPreserveComments preserveComments
    (filePaths.foldl AddFilePath
      (includePaths.foldl AddIncludePath
        (defines.foldl AddDefine new)))

/-- An entry point that reports `errors` and leaves `returned` behind
`phCLUIMod`, loaded next to the UI module `owned`. -/
def sample_c1 (owned : HMODULE) (errors : Int) (returned : HMODULE) :
    c_visual_cpp_c1_interface :=
  { m_cl_ui_module := owned
    m_c1_invoke_compiler_pass_wide_func := fun _ _ _ _ => (errors, returned) }

end c_visual_cpp_c1_preprocessor_interface

/-! ## Sample surroundings for the examples -/

/-- An environment that holds the listed variables and no other. -/
def env_of (entries : List (String × wstring)) : String → Option wstring :=
  fun name => entries.lookup name

/-- A filesystem on which the listed paths exist and no other. -/
def fs_of (existing : List path) : path → Bool :=
  fun p => existing.contains p

/-- Whether a character is a directory separator. -/
def is_slash (c : Char) : Bool := c == '/' || c == Char.ofNat 92

/-- The names of a rootless path text: `cur` is the name being read, reversed,
and `after_name` tells that a name was completed before; a final separator
after a name gives the element ".". -/
def names : List Char → List Char → Bool → path
  | [], [], true => ["."]
  | [], [], false => []
  | [], c :: cur, _ => [String.mk (c :: cur).reverse]
  | c :: rest, cur, after_name =>
    if is_slash c then
      (if cur.isEmpty then names rest [] after_name
       else String.mk cur.reverse :: names rest [] true)
    else names rest (c :: cur) false

/-- A conversion of strings to paths for the examples: a drive, a root
directory (written "/"), the names, and "." for a final separator. -/
def sample_to_path (s : wstring) : path :=
  match s.toList with
  | [] => []
  | [c] => if is_slash c then ["/"] else [String.mk [c]]
  | d :: c :: rest =>
    if c == ':' then
      match rest with
      | [] => [String.mk [d, c]]
      | r :: rest' =>
        if is_slash r then String.mk [d, c] :: "/" :: names rest' [] false
        else String.mk [d, c] :: names rest [] false
    else if is_slash d then "/" :: names (c :: rest) [] false
    else names (d :: c :: rest) [] false

/-! ## Helper lemmas -/

theorem mem_try_emplace_imp {α : Type} (k : Int) (v : α) (m : StdMap α) (x : Int × α)
    (hx : x ∈ try_emplace k v m) : x ∈ m ∨ x = (k, v) := by
  induction m with
  | nil => simpa [try_emplace] using hx
  | cons e rest ih =>
    obtain ⟨k', v'⟩ := e
    simp only [try_emplace] at hx
    split at hx
    · simp only [List.mem_cons] at hx ⊢
      tauto
    · split at hx
      · exact Or.inl hx
      · simp only [List.mem_cons] at hx ⊢
        rcases hx with h | h
        · exact Or.inl (Or.inl h)
        · rcases ih h with h | h
          · exact Or.inl (Or.inr h)
          · exact Or.inr h

theorem mem_try_emplace_of_mem {α : Type} (k : Int) (v : α) (m : StdMap α) (x : Int × α)
    (hx : x ∈ m) : x ∈ try_emplace k v m := by
  induction m with
  | nil => simp at hx
  | cons e rest ih =>
    obtain ⟨k', v'⟩ := e
    simp only [try_emplace]
    split
    · exact List.mem_cons_of_mem _ hx
    · split
      · exact hx
      · simp only [List.mem_cons] at hx ⊢
        rcases hx with h | h
        · exact Or.inl h
        · exact Or.inr (ih h)

theorem mem_try_emplace_new {α : Type} (k : Int) (v : α) (m : StdMap α)
    (hk : k ∉ m.map Prod.fst) : (k, v) ∈ try_emplace k v m := by
  induction m with
  | nil => simp [try_emplace]
  | cons e rest ih =>
    obtain ⟨k', v'⟩ := e
    simp only [List.map_cons, List.mem_cons, not_or] at hk
    simp only [try_emplace]
    split
    · simp
    · rw [if_neg hk.1]
      exact List.mem_cons_of_mem _ (ih hk.2)

theorem keys_try_emplace {α : Type} (k : Int) (v : α) (m : StdMap α) (k' : Int) :
    k' ∈ (try_emplace k v m).map Prod.fst ↔ k' ∈ m.map Prod.fst ∨ k' = k := by
  induction m with
  | nil => simp [try_emplace]
  | cons e rest ih =>
    obtain ⟨k0, v0⟩ := e
    simp only [try_emplace]
    split
    · simp only [List.map_cons, List.mem_cons]; tauto
    · split
      · rename_i h; subst h; simp only [List.map_cons, List.mem_cons]; tauto
      · simp only [List.map_cons, List.mem_cons, ih]; tauto

theorem ordered_try_emplace {α : Type} (k : Int) (v : α) (m : StdMap α)
    (hm : StdMap.ordered m) : StdMap.ordered (try_emplace k v m) := by
  induction m with
  | nil => simp [try_emplace, StdMap.ordered]
  | cons e rest ih =>
    obtain ⟨k0, v0⟩ := e
    have hm' := hm
    simp only [StdMap.ordered, List.map_cons, List.pairwise_cons] at hm
    simp only [try_emplace]
    split
    · rename_i hlt
      simp only [StdMap.ordered, List.map_cons, List.pairwise_cons]
      refine ⟨?_, hm⟩
      intro a ha
      simp only [List.mem_cons] at ha
      rcases ha with h | h
      · omega
      · have := hm.1 a h; omega
    · split
      · exact hm'
      · rename_i h1 h2
        simp only [StdMap.ordered, List.map_cons, List.pairwise_cons]
        refine ⟨?_, ih hm.2⟩
        intro a ha
        rcases (keys_try_emplace k v rest a).1 ha with h | h
        · exact hm.1 a h
        · omega

theorem mem_try_emplace_iff {α : Type} (k : Int) (v : α) (m : StdMap α)
    (hm : StdMap.ordered m) (x : Int × α) :
    x ∈ try_emplace k v m ↔ x ∈ m ∨ (x = (k, v) ∧ k ∉ m.map Prod.fst) := by
  constructor
  · intro hx
    by_cases hin : x ∈ m
    · exact Or.inl hin
    · right
      induction m with
      | nil => simpa [try_emplace] using hx
      | cons e rest ih =>
        obtain ⟨k0, v0⟩ := e
        simp only [StdMap.ordered, List.map_cons, List.pairwise_cons] at hm
        simp only [List.mem_cons, not_or] at hin
        simp only [try_emplace] at hx
        split at hx
        · rename_i hlt
          simp only [List.mem_cons] at hx
          rcases hx with h | h | h
          · refine ⟨h, ?_⟩
            simp only [List.map_cons, List.mem_cons, not_or]
            refine ⟨by omega, fun hmem => ?_⟩
            have := hm.1 k hmem; omega
          · exact absurd h hin.1
          · exact absurd h hin.2
        · split at hx
          · simp only [List.mem_cons] at hx
            rcases hx with h | h
            · exact absurd h hin.1
            · exact absurd h hin.2
          · rename_i h1 h2
            simp only [List.mem_cons] at hx
            rcases hx with h | h
            · exact absurd h hin.1
            · obtain ⟨e1, e2⟩ := ih hm.2 h hin.2
              refine ⟨e1, ?_⟩
              simp only [List.map_cons, List.mem_cons, not_or]
              exact ⟨h2, e2⟩
  · rintro (h | ⟨h, hk⟩)
    · exact mem_try_emplace_of_mem k v m x h
    · subst h; exact mem_try_emplace_new k v m hk

namespace c_visual_studio_common_tools_path_finder

theorem scan_version_eq (env : String → Option wstring) (m : StdMap wstring) (v : Int) :
    scan_version env m v =
      match env (envName v) with
      | some s => if s.length < 260 then try_emplace (v * 10) s m else m
      | none => m := by
  simp only [scan_version, wgetenv_s, MAX_PATH, ShortVsVersionToFull, ERANGE]
  cases h : env (envName v) with
  | none => simp
  | some s =>
    by_cases hl : s.length < 260
    · have : ¬ (260 < s.length + 1) := by omega
      simp [hl, this]
    · have : 260 < s.length + 1 := by omega
      simp [hl, this]

theorem ordered_scan_version (env : String → Option wstring) (m : StdMap wstring) (v : Int)
    (hm : StdMap.ordered m) : StdMap.ordered (scan_version env m v) := by
  rw [scan_version_eq]
  split
  · split
    · exact ordered_try_emplace _ _ _ hm
    · exact hm
  · exact hm

theorem scan_loop_spec (env : String → Option wstring) (vs : List Int) (m : StdMap wstring)
    (hm : StdMap.ordered m) :
    StdMap.ordered (vs.foldl (scan_version env) m)
    ∧ ∀ (k : Int) (s : wstring), (k, s) ∈ vs.foldl (scan_version env) m ↔
        (k, s) ∈ m ∨ (k ∉ m.map Prod.fst ∧
          ∃ v ∈ vs, k = v * 10 ∧ env (envName v) = some s ∧ s.length < 260) := by
  induction vs generalizing m with
  | nil => simp [hm]
  | cons v vs ih =>
    rw [List.foldl_cons]
    have hm1 := ordered_scan_version env m v hm
    refine ⟨(ih _ hm1).1, fun k s => ?_⟩
    rw [(ih _ hm1).2 k s]
    rw [scan_version_eq]
    cases hv : env (envName v) with
    | none =>
      simp only [List.mem_cons, exists_eq_or_imp, hv]
      simp
    | some s0 =>
      by_cases hl : s0.length < 260
      · simp only [hl, if_true, mem_try_emplace_iff _ _ _ hm, keys_try_emplace,
          List.mem_cons, exists_eq_or_imp, hv, Option.some.injEq, Prod.mk.injEq, not_or]
        constructor
        · rintro ((h | ⟨⟨rfl, rfl⟩, h⟩) | ⟨⟨h1, h2⟩, v', hv', rfl, h3⟩)
          · exact Or.inl h
          · exact Or.inr ⟨h, Or.inl ⟨rfl, rfl, hl⟩⟩
          · exact Or.inr ⟨h1, Or.inr ⟨v', hv', rfl, h3⟩⟩
        · rintro (h | ⟨h1, ⟨rfl, rfl, _⟩ | ⟨v', hv', rfl, h3, h4⟩⟩)
          · exact Or.inl (Or.inl h)
          · exact Or.inl (Or.inr ⟨⟨rfl, rfl⟩, h1⟩)
          · by_cases hvv : v' = v
            · subst hvv
              rw [hv] at h3
              simp only [Option.some.injEq] at h3
              subst h3
              exact Or.inl (Or.inr ⟨⟨rfl, rfl⟩, h1⟩)
            · exact Or.inr ⟨⟨h1, by omega⟩, v', hv', rfl, h3, h4⟩
      · simp only [hl, if_false, List.mem_cons, exists_eq_or_imp, hv, Option.some.injEq]
        constructor
        · rintro (h | ⟨h1, v', hv', rfl, h3⟩)
          · exact Or.inl h
          · exact Or.inr ⟨h1, Or.inr ⟨v', hv', rfl, h3⟩⟩
        · rintro (h | ⟨h1, ⟨rfl, rfl, h4⟩ | ⟨v', hv', rfl, h3⟩⟩)
          · exact Or.inl h
          · exact absurd h4 hl
          · exact Or.inr ⟨h1, v', hv', rfl, h3⟩

theorem mem_search_versions (v : Int) : v ∈ search_versions ↔ 11 ≤ v ∧ v ≤ 15 := by
  have : search_versions = [11, 12, 13, 14, 15] := by decide
  rw [this]
  simp only [List.mem_cons, List.mem_singleton, List.not_mem_nil, or_false]
  omega

end c_visual_studio_common_tools_path_finder


namespace c_visual_cpp_c1_preprocessor_interface

theorem foldl_flag_value (flag : wstring) (xs : List wstring) (acc : List wstring) :
    xs.foldl (fun acc str => (acc ++ [flag]) ++ [str]) acc
      = acc ++ xs.flatMap (fun x => [flag, x]) := by
  induction xs generalizing acc with
  | nil => simp
  | cons x xs ih => rw [List.foldl_cons, ih]; simp

theorem foldl_nothing (xs : List wstring) (acc : List wstring) :
    xs.foldl (fun acc _ => acc) acc = acc := by
  induction xs generalizing acc with
  | nil => rfl
  | cons x xs ih => simp [List.foldl, ih]

theorem length_flatMap_pair (flag : wstring) (xs : List wstring) :
    (xs.flatMap (fun x => [flag, x])).length = 2 * xs.length := by
  induction xs with
  | nil => rfl
  | cons x xs ih => simp [List.flatMap_cons, ih]; omega

theorem FinalizeArgs_args (self : c_visual_cpp_c1_preprocessor_interface) :
    (FinalizeArgs self).m_invoke_func_args
      = self.m_invoke_func_args ++ ["-nologo", "-E", "-EP"]
        ++ (if self.m_preserve_comments then ["-C"] else [])
        ++ self.m_defines.flatMap (fun d => ["-D", d])
        ++ self.m_file_paths.flatMap (fun f => ["-f", f]) := by
  simp only [FinalizeArgs, foldl_flag_value, foldl_nothing]
  cases self.m_preserve_comments <;> simp

theorem foldl_AddDefine (xs : List wstring) (s : c_visual_cpp_c1_preprocessor_interface) :
    xs.foldl AddDefine s = { s with m_defines := s.m_defines ++ xs } := by
  induction xs generalizing s with
  | nil => simp
  | cons x xs ih => simp [List.foldl, ih, AddDefine]

theorem foldl_AddIncludePath (xs : List wstring) (s : c_visual_cpp_c1_preprocessor_interface) :
    xs.foldl AddIncludePath s = { s with m_include_paths := s.m_include_paths ++ xs } := by
  induction xs generalizing s with
  | nil => simp
  | cons x xs ih => simp [List.foldl, ih, AddIncludePath]

theorem foldl_AddFilePath (xs : List wstring) (s : c_visual_cpp_c1_preprocessor_interface) :
    xs.foldl AddFilePath s = { s with m_file_paths := s.m_file_paths ++ xs } := by
  induction xs generalizing s with
  | nil => simp
  | cons x xs ih => simp [List.foldl, ih, AddFilePath]

theorem with_options_eq (defines includePaths filePaths : List wstring) (b : Bool) :
    with_options defines includePaths filePaths b
      = { m_invoke_func_args := []
          m_defines := defines
          m_include_paths := includePaths
          m_file_paths := filePaths
          m_errors_returned := -1
          m_preserve_comments := b } := by
  simp [with_options, foldl_AddDefine, foldl_AddIncludePath, foldl_AddFilePath,
    SetPreserveComments, new]

theorem Run_of_ready (c1 : c_visual_cpp_c1_interface)
    (self : c_visual_cpp_c1_preprocessor_interface) (h : self.m_errors_returned = -1) :
    Run c1 self =
      if (invoke c1 (FinalizeArgs self)).2 = c1.m_cl_ui_module then
        .ok (decide ((invoke c1 (FinalizeArgs self)).1 = 0),
          { FinalizeArgs self with m_errors_returned := (invoke c1 (FinalizeArgs self)).1 })
      else .error .ui_module_rug := by
  simp only [Run, h]
  by_cases hh : (invoke c1 (FinalizeArgs self)).2 = c1.m_cl_ui_module <;> simp [hh, beq_eq_decide]

theorem Run_of_not_ready (c1 : c_visual_cpp_c1_interface)
    (self : c_visual_cpp_c1_preprocessor_interface) (h : self.m_errors_returned ≠ -1) :
    Run c1 self = .error .not_reset := by
  simp [Run, h]

end c_visual_cpp_c1_preprocessor_interface

/-! ## The argument vector -/

open c_visual_cpp_c1_preprocessor_interface in
/-- C1: with N defines, K include paths, M file paths and the setting b added
to a new interface, FinalizeArgs assembles -nologo, -E, -EP, then -C exactly
when b holds, then -D and the define for each define in order, then -f and the
path for each file path in order; that is 3 + (1 if b) + 2*N + 2*M arguments,
and the include paths have no influence on them. -/
theorem C1_FinalizeArgs_assembles (defines includePaths filePaths : List wstring) (b : Bool) :
    (FinalizeArgs (with_options defines includePaths filePaths b)).m_invoke_func_args
        = ["-nologo", "-E", "-EP"] ++ (if b then ["-C"] else [])
          ++ defines.flatMap (fun d => ["-D", d])
          ++ filePaths.flatMap (fun f => ["-f", f])
    ∧ (FinalizeArgs (with_options defines includePaths filePaths b)).m_invoke_func_args.length
        = 3 + (if b then 1 else 0) + 2 * defines.length + 2 * filePaths.length
    ∧ ∀ otherIncludePaths : List wstring,
        (FinalizeArgs (with_options defines otherIncludePaths filePaths b)).m_invoke_func_args
          = (FinalizeArgs (with_options defines includePaths filePaths b)).m_invoke_func_args := by
  have key : ∀ incs : List wstring,
      (FinalizeArgs (with_options defines incs filePaths b)).m_invoke_func_args
        = ["-nologo", "-E", "-EP"] ++ (if b then ["-C"] else [])
          ++ defines.flatMap (fun d => ["-D", d])
          ++ filePaths.flatMap (fun f => ["-f", f]) := by
    intro incs
    rw [FinalizeArgs_args, with_options_eq]
    simp
  refine ⟨key _, ?_, fun incs => (key incs).trans (key _).symm⟩
  rw [key]
  simp only [List.length_append, length_flatMap_pair, List.length_cons, List.length_nil]
  cases b <;> simp

open c_visual_cpp_c1_preprocessor_interface in
/-- C2, as the code has it: after Reset, with no option added, FinalizeArgs
assembles -nologo, -E, -EP followed by -C exactly when comment preservation
was switched on before the Reset, which Reset does not undo; when it was off
the vector is the three flags, the one a new interface assembles. -/
theorem C2_Reset_then_FinalizeArgs (self : c_visual_cpp_c1_preprocessor_interface) :
    (FinalizeArgs (Reset self)).m_invoke_func_args
        = ["-nologo", "-E", "-EP"] ++ (if self.m_preserve_comments then ["-C"] else [])
    ∧ (self.m_preserve_comments = false →
        (FinalizeArgs (Reset self)).m_invoke_func_args = ["-nologo", "-E", "-EP"]
        ∧ (FinalizeArgs (Reset self)).m_invoke_func_args
            = (FinalizeArgs new).m_invoke_func_args) := by
  have h : (FinalizeArgs (Reset self)).m_invoke_func_args
      = ["-nologo", "-E", "-EP"] ++ (if self.m_preserve_comments then ["-C"] else []) := by
    rw [FinalizeArgs_args]; simp [Reset]
  refine ⟨h, fun hb => ?_⟩
  rw [h, FinalizeArgs_args]
  simp [hb, new]

open c_visual_cpp_c1_preprocessor_interface in
/-- C2 witness: an interface that ran once with a define and a file path and
comment preservation off. -/
theorem C2_Reset_then_FinalizeArgs_witness :
    (FinalizeArgs (Reset (FinalizeArgs (with_options ["NDEBUG"] [] ["a.c"] false)))).m_invoke_func_args
        = ["-nologo", "-E", "-EP"]
    ∧ (FinalizeArgs (Reset (FinalizeArgs (with_options ["NDEBUG"] [] ["a.c"] false)))).m_invoke_func_args
        = (FinalizeArgs new).m_invoke_func_args :=
  (C2_Reset_then_FinalizeArgs (FinalizeArgs (with_options ["NDEBUG"] [] ["a.c"] false))).2
    (by decide)

open c_visual_cpp_c1_preprocessor_interface in
/-- C2 fails as stated: with comment preservation switched on, Reset followed
by FinalizeArgs assembles four arguments, -C being the fourth, whereas a new
interface assembles three. -/
theorem C2_counterexample :
    (FinalizeArgs (Reset (SetPreserveComments true new))).m_invoke_func_args
        = ["-nologo", "-E", "-EP", "-C"]
    ∧ (FinalizeArgs (Reset (SetPreserveComments true new))).m_invoke_func_args
        ≠ ["-nologo", "-E", "-EP"]
    ∧ (FinalizeArgs (Reset (SetPreserveComments true new))).m_invoke_func_args
        ≠ (FinalizeArgs new).m_invoke_func_args := by
  decide

/-! ## Run -/

open c_visual_cpp_c1_preprocessor_interface in
/-- C6, as the code has it: when a first Run returned and the integer that the
entry point returned was not -1, a second Run without a Reset in between fails
on the guard assertion, whatever entry point is loaded, so the entry point is
not called again. (The guard compares the stored count with -1, so a returned
-1 is not told apart from a Reset.) -/
theorem C6_second_Run_rejected (c1 : c_visual_cpp_c1_interface)
    (self after : c_visual_cpp_c1_preprocessor_interface) (b : Bool)
    (hfirst : Run c1 self = .ok (b, after))
    (hcount : (invoke c1 (FinalizeArgs self)).1 ≠ -1) :
    ∀ c1' : c_visual_cpp_c1_interface, Run c1' after = .error .not_reset := by
  intro c1'
  by_cases hready : self.m_errors_returned = -1
  · rw [Run_of_ready c1 self hready] at hfirst
    split at hfirst
    · simp only [Except.ok.injEq, Prod.mk.injEq] at hfirst
      apply Run_of_not_ready
      rw [← hfirst.2]
      exact hcount
    · simp at hfirst
  · rw [Run_of_not_ready c1 self hready] at hfirst
    simp at hfirst

open c_visual_cpp_c1_preprocessor_interface in
/-- C6 witness: the entry point reports 2 errors on a new interface with one
file path; the second Run fails on the guard. -/
theorem C6_second_Run_rejected_witness :
    Run (sample_c1 7 2 7)
      { m_invoke_func_args := ["-nologo", "-E", "-EP", "-f", "a.c"]
        m_defines := []
        m_include_paths := []
        m_file_paths := ["a.c"]
        m_errors_returned := 2
        m_preserve_comments := false } = .error .not_reset :=
  C6_second_Run_rejected (sample_c1 7 2 7) (with_options [] [] ["a.c"] false) _ false
    (by decide) (by decide) (sample_c1 7 2 7)

open c_visual_cpp_c1_preprocessor_interface in
/-- C6 fails as stated: the entry point returns -1 from the first Run on a new
interface; the first Run returns false, and the second Run, made without a
Reset, passes the guard, calls the entry point again on a vector that now
holds the three flags twice, and returns false. -/
theorem C6_counterexample :
    Run (sample_c1 7 (-1) 7) new
        = .ok (false, { new with m_invoke_func_args := ["-nologo", "-E", "-EP"] })
    ∧ Run (sample_c1 7 (-1) 7) { new with m_invoke_func_args := ["-nologo", "-E", "-EP"] }
        = .ok (false,
            { new with m_invoke_func_args := ["-nologo", "-E", "-EP", "-nologo", "-E", "-EP"] })
    ∧ Run (sample_c1 7 (-1) 7) { new with m_invoke_func_args := ["-nologo", "-E", "-EP"] }
        ≠ .error .not_reset := by
  decide

open c_visual_cpp_c1_preprocessor_interface in
/-- C7: on an interface that is new or was reset (stored count -1), with an
entry point that leaves the UI-module handle as it was, Run returns, its
result is true exactly when the integer returned by the entry point is 0, and
that integer is the stored error count afterwards. -/
theorem C7_Run_true_iff_zero (c1 : c_visual_cpp_c1_interface)
    (self : c_visual_cpp_c1_preprocessor_interface)
    (hready : self.m_errors_returned = -1)
    (hsame : (invoke c1 (FinalizeArgs self)).2 = c1.m_cl_ui_module) :
    ∃ (b : Bool) (after : c_visual_cpp_c1_preprocessor_interface),
      Run c1 self = .ok (b, after)
      ∧ (b = true ↔ (invoke c1 (FinalizeArgs self)).1 = 0)
      ∧ after.m_errors_returned = (invoke c1 (FinalizeArgs self)).1 := by
  refine ⟨decide ((invoke c1 (FinalizeArgs self)).1 = 0),
    { FinalizeArgs self with m_errors_returned := (invoke c1 (FinalizeArgs self)).1 },
    ?_, ?_, ?_⟩
  · rw [Run_of_ready c1 self hready, if_pos hsame]
  · simp
  · rfl

open c_visual_cpp_c1_preprocessor_interface in
/-- C7 witness: a reset interface and an entry point that returns -3. -/
theorem C7_Run_true_iff_zero_witness :
    ∃ (b : Bool) (after : c_visual_cpp_c1_preprocessor_interface),
      Run (sample_c1 7 (-3) 7) (Reset (with_options ["NDEBUG"] [] ["a.c"] true)) = .ok (b, after)
      ∧ (b = true ↔
          (invoke (sample_c1 7 (-3) 7)
            (FinalizeArgs (Reset (with_options ["NDEBUG"] [] ["a.c"] true)))).1 = 0)
      ∧ after.m_errors_returned
          = (invoke (sample_c1 7 (-3) 7)
              (FinalizeArgs (Reset (with_options ["NDEBUG"] [] ["a.c"] true)))).1 :=
  C7_Run_true_iff_zero (sample_c1 7 (-3) 7) (Reset (with_options ["NDEBUG"] [] ["a.c"] true))
    (by decide) (by decide)

open c_visual_cpp_c1_preprocessor_interface in
/-- C8: in a Run that reaches the entry point (stored count -1), a UI-module
handle written back different from the one the loader owns ends the Run on the
assertion, whatever integer was returned, and the Run yields neither true nor
false; a handle written back equal lets the Run return its flag. -/
theorem C8_Run_handle_check (c1 : c_visual_cpp_c1_interface)
    (self : c_visual_cpp_c1_preprocessor_interface)
    (hready : self.m_errors_returned = -1) :
    ((invoke c1 (FinalizeArgs self)).2 ≠ c1.m_cl_ui_module →
        Run c1 self = .error .ui_module_rug
        ∧ ∀ r : Bool × c_visual_cpp_c1_preprocessor_interface, Run c1 self ≠ .ok r)
    ∧ ((invoke c1 (FinalizeArgs self)).2 = c1.m_cl_ui_module →
        ∃ r : Bool × c_visual_cpp_c1_preprocessor_interface, Run c1 self = .ok r) := by
  rw [Run_of_ready c1 self hready]
  constructor
  · intro h
    rw [if_neg h]
    exact ⟨rfl, fun r hr => by simp at hr⟩
  · intro h
    rw [if_pos h]
    exact ⟨_, rfl⟩

open c_visual_cpp_c1_preprocessor_interface in
/-- C8 witness: the entry point returns 0 errors and another handle. -/
theorem C8_Run_handle_check_witness :
    Run (sample_c1 7 0 8) (with_options [] [] ["a.c"] false) = .error .ui_module_rug
    ∧ ∀ r : Bool × c_visual_cpp_c1_preprocessor_interface,
        Run (sample_c1 7 0 8) (with_options [] [] ["a.c"] false) ≠ .ok r :=
  (C8_Run_handle_check (sample_c1 7 0 8) (with_options [] [] ["a.c"] false) (by decide)).1
    (by decide)

/-! ## Discovery -/

namespace c_visual_studio_common_tools_path_finder

theorem FindAllPaths_new (env : String → Option wstring) :
    FindAllPaths env new =
      (!(search_versions.foldl (scan_version env) []).isEmpty,
        { m_found_no_paths := (search_versions.foldl (scan_version env) []).isEmpty
          m_found_visual_studio_common_tools_paths :=
            search_versions.foldl (scan_version env) []
          m_found_visual_cpp_bin_paths := [] }) := by
  simp [FindAllPaths, new, FindByGetEnvUsingShotguns]

theorem filter_loop_mem (kIsWin64 : Bool) (to_path : wstring → path) (fs_exists : path → Bool)
    (cands : List (Int × wstring)) (bins out : StdMap path)
    (h : filter_loop kIsWin64 to_path fs_exists cands bins = .ok out)
    (k : Int) (p : path) (hp : (k, p) ∈ out) :
    (k, p) ∈ bins ∨
      (fs_exists p = true ∧ ∃ s, (k, s) ∈ cands ∧ filename (to_path s) = "."
        ∧ p = visualCppBinPath kIsWin64 (to_path s)) := by
  induction cands generalizing bins with
  | nil =>
    simp only [filter_loop, Except.ok.injEq] at h
    subst h
    exact Or.inl hp
  | cons pair rest ih =>
    simp only [filter_loop] at h
    split at h
    · simp at h
    · rename_i hname
      simp only [bne_iff_ne, ne_eq, Decidable.not_not] at hname
      split at h
      · rcases ih bins h with h1 | ⟨h1, s, h2, h3⟩
        · exact Or.inl h1
        · exact Or.inr ⟨h1, s, List.mem_cons_of_mem _ h2, h3⟩
      · rename_i hex
        simp only [Bool.not_eq_true, Bool.not_eq_false_eq_eq_true, Bool.not_not, Bool.not_eq_true'] at hex
        rcases ih _ h with h1 | ⟨h1, s, h2, h3⟩
        · rcases mem_try_emplace_imp _ _ _ _ h1 with h4 | h4
          · exact Or.inl h4
          · simp only [Prod.mk.injEq] at h4
            obtain ⟨rfl, rfl⟩ := h4
            refine Or.inr ⟨by simpa using hex, pair.2, ?_, hname, rfl⟩
            simp
        · exact Or.inr ⟨h1, s, List.mem_cons_of_mem _ h2, h3⟩

theorem getLast_ordered {α : Type} (m : StdMap α) (hm : StdMap.ordered m) (last : Int × α)
    (hlast : m.getLast? = some last) :
    last ∈ m ∧ ∀ x ∈ m, x = last ∨ x.1 < last.1 := by
  have hmem : last ∈ m := List.mem_of_getLast?_eq_some hlast
  refine ⟨hmem, ?_⟩
  have hsplit : m = m.dropLast ++ [last] := by
    have hne : m ≠ [] := by intro h; simp [h] at hmem
    have := List.dropLast_append_getLast hne
    rw [List.getLast?_eq_getLast _ hne] at hlast
    simp only [Option.some.injEq] at hlast
    rw [hlast] at this
    exact this.symm
  intro x hx
  rw [hsplit] at hx hm
  simp only [StdMap.ordered, List.map_append, List.map_cons, List.map_nil,
    List.pairwise_append] at hm
  simp only [List.mem_append, List.mem_singleton] at hx
  rcases hx with h | h
  · right
    exact hm.2.2 x.1 (List.mem_map_of_mem _ h) last.1 (by simp)
  · exact Or.inl h

end c_visual_studio_common_tools_path_finder

open c_visual_studio_common_tools_path_finder in
/-- C5, as the code has it: after FindAllPaths on a new finder the candidate
map holds, for each v in 11..15, the key 10*v mapped to the value of the
variable VS, decimal of 10*v, COMNTOOLS exactly when that variable is present
with a value of fewer than 260 characters (an empty value included), and
holds no other entry; the five names are VS110COMNTOOLS to VS150COMNTOOLS; the
call returns whether the map is non-empty and fails in no case. -/
theorem C5_FindAllPaths_candidates (env : String → Option wstring) :
    StdMap.ordered (FindAllPaths env new).2.m_found_visual_studio_common_tools_paths
    ∧ (∀ (k : Int) (s : wstring),
        (k, s) ∈ (FindAllPaths env new).2.m_found_visual_studio_common_tools_paths ↔
          ∃ v : Int, 11 ≤ v ∧ v ≤ 15 ∧ k = 10 * v
            ∧ env (envName v) = some s ∧ s.length < 260)
    ∧ search_versions.map envName
        = ["VS110COMNTOOLS", "VS120COMNTOOLS", "VS130COMNTOOLS", "VS140COMNTOOLS",
            "VS150COMNTOOLS"]
    ∧ (FindAllPaths env new).1
        = !(FindAllPaths env new).2.m_found_visual_studio_common_tools_paths.isEmpty := by
  have hspec := scan_loop_spec env search_versions []
    (by simp [StdMap.ordered])
  rw [FindAllPaths_new]
  refine ⟨hspec.1, fun k s => ?_, by decide, rfl⟩
  simp only []
  rw [hspec.2 k s]
  simp only [List.not_mem_nil, false_or, List.map_nil, not_false_eq_true, true_and,
    mem_search_versions]
  constructor
  · rintro ⟨v, ⟨h1, h2⟩, h3, h4⟩
    exact ⟨v, h1, h2, by omega, h4⟩
  · rintro ⟨v, h1, h2, h3, h4⟩
    exact ⟨v, ⟨h1, h2⟩, by omega, h4⟩


open c_visual_studio_common_tools_path_finder in
/-- C5 fails as stated, in both directions: with VS110COMNTOOLS present and
empty the map holds key 110, mapped to the empty string; with VS120COMNTOOLS
set to a value of 260 characters, which does not fit the buffer of _MAX_PATH
wide characters, the map holds nothing. -/
theorem C5_counterexample :
    env_of [("VS110COMNTOOLS", "")] "VS110COMNTOOLS" = some ""
    ∧ (FindAllPaths (env_of [("VS110COMNTOOLS", "")]) new).2.m_found_visual_studio_common_tools_paths
        = [(110, "")]
    ∧ (String.mk (List.replicate 260 'a')).length = 260
    ∧ (FindAllPaths (env_of [("VS120COMNTOOLS", String.mk (List.replicate 260 'a'))])
          new).2.m_found_visual_studio_common_tools_paths = [] := by
  set_option maxRecDepth 100000 in decide

open c_visual_studio_common_tools_path_finder in
/-- C9: for every finder and every pair of environments e1 and e2, a second
FindAllPaths under e2 after a first one under e1 returns the same flag and
leaves the finder (candidate map and found-nothing flag included) as the first
call left it, so e2 has no influence; when the first call returned false the
second returns false. -/
theorem C9_FindAllPaths_idempotent (self : c_visual_studio_common_tools_path_finder)
    (e1 e2 : String → Option wstring) :
    FindAllPaths e2 (FindAllPaths e1 self).2 = FindAllPaths e1 self
    ∧ ((FindAllPaths e1 self).1 = false → (FindAllPaths e2 (FindAllPaths e1 self).2).1 = false) := by
  have h : FindAllPaths e2 (FindAllPaths e1 self).2 = FindAllPaths e1 self := by
    simp only [FindAllPaths]
    split
    · simp only [FindByGetEnvUsingShotguns]
      generalize search_versions.foldl (scan_version e1)
        self.m_found_visual_studio_common_tools_paths = found
      cases hf : found.isEmpty <;> simp [hf]
    · rename_i hc
      simp only [hc]
  exact ⟨h, fun hf => by rw [h]; exact hf⟩

open c_visual_studio_common_tools_path_finder in
/-- C9 witness: the first scan finds nothing, the second environment defines
VS140COMNTOOLS, and the second call returns false. -/
theorem C9_FindAllPaths_idempotent_witness :
    (FindAllPaths (env_of [("VS140COMNTOOLS", "C:/VS14/Common7/Tools/")])
      (FindAllPaths (env_of []) new).2).1 = false :=
  (C9_FindAllPaths_idempotent new (env_of [])
    (env_of [("VS140COMNTOOLS", "C:/VS14/Common7/Tools/")])).2 (by decide)

open c_visual_studio_common_tools_path_finder in
/-- C4: on every map of validated bin paths (keys strictly increasing, as in
a std::map), GetLatestVisualCppBinPath returns false and leaves the output
path as it was when the map is empty; otherwise it returns true and the output
path is that of an entry of the map whose key is strictly greater than the key
of every other entry. -/
theorem C4_GetLatestVisualCppBinPath (self : c_visual_studio_common_tools_path_finder)
    (outPath : path) (hmap : StdMap.ordered self.m_found_visual_cpp_bin_paths) :
    (self.m_found_visual_cpp_bin_paths = [] →
        GetLatestVisualCppBinPath self outPath = (false, outPath))
    ∧ (self.m_found_visual_cpp_bin_paths ≠ [] →
        ∃ (k : Int) (p : path), (k, p) ∈ self.m_found_visual_cpp_bin_paths
          ∧ GetLatestVisualCppBinPath self outPath = (true, p)
          ∧ ∀ (k' : Int) (p' : path), (k', p') ∈ self.m_found_visual_cpp_bin_paths →
              (k', p') ≠ (k, p) → k' < k) := by
  constructor
  · intro h
    simp [GetLatestVisualCppBinPath, h]
  · intro h
    cases hl : self.m_found_visual_cpp_bin_paths.getLast? with
    | none => exact absurd (List.getLast?_eq_none_iff.1 hl) h
    | some last =>
      obtain ⟨hmem, hmax⟩ := getLast_ordered _ hmap last hl
      refine ⟨last.1, last.2, hmem, by simp [GetLatestVisualCppBinPath, hl], ?_⟩
      intro k' p' hin hne
      rcases hmax _ hin with h1 | h1
      · exact absurd h1 hne
      · exact h1

open c_visual_studio_common_tools_path_finder in
/-- C4 witness: a map with the keys 110 and 140. -/
theorem C4_GetLatestVisualCppBinPath_witness :
    ∃ (k : Int) (p : path),
      (k, p) ∈ [((110 : Int), ["C:", "/", "VS11", "VC", "bin"]),
                (140, ["C:", "/", "VS14", "VC", "bin"])]
      ∧ GetLatestVisualCppBinPath
          { m_found_no_paths := false
            m_found_visual_studio_common_tools_paths := []
            m_found_visual_cpp_bin_paths :=
              [(110, ["C:", "/", "VS11", "VC", "bin"]), (140, ["C:", "/", "VS14", "VC", "bin"])] }
          [] = (true, p)
      ∧ ∀ (k' : Int) (p' : path),
          (k', p') ∈ [((110 : Int), ["C:", "/", "VS11", "VC", "bin"]),
                      (140, ["C:", "/", "VS14", "VC", "bin"])] →
            (k', p') ≠ (k, p) → k' < k :=
  (C4_GetLatestVisualCppBinPath
    { m_found_no_paths := false
      m_found_visual_studio_common_tools_paths := []
      m_found_visual_cpp_bin_paths :=
        [(110, ["C:", "/", "VS11", "VC", "bin"]), (140, ["C:", "/", "VS14", "VC", "bin"])] }
    [] (by simp [StdMap.ordered])).2 (by simp)

namespace c_visual_studio_common_tools_path_finder

theorem FindAllPaths_bin_paths (env : String → Option wstring)
    (self : c_visual_studio_common_tools_path_finder) :
    (FindAllPaths env self).2.m_found_visual_cpp_bin_paths = self.m_found_visual_cpp_bin_paths := by
  simp only [FindAllPaths]
  split <;> simp [FindByGetEnvUsingShotguns]

theorem filter_loop_ok (kIsWin64 : Bool) (to_path : wstring → path) (fs_exists : path → Bool)
    (cands : List (Int × wstring)) (bins : StdMap path)
    (h : ∀ k s, (k, s) ∈ cands → filename (to_path s) = ".") :
    ∃ out, filter_loop kIsWin64 to_path fs_exists cands bins = .ok out := by
  induction cands generalizing bins with
  | nil => exact ⟨bins, rfl⟩
  | cons pair rest ih =>
    have h1 : filename (to_path pair.2) = "." := h pair.1 pair.2 (by simp)
    have h2 : ∀ k s, (k, s) ∈ rest → filename (to_path s) = "." :=
      fun k s hm => h k s (List.mem_cons_of_mem _ hm)
    simp only [filter_loop, h1, bne_self_eq_false, Bool.false_eq_true, if_false]
    split
    · exact ih _ h2
    · exact ih _ h2

end c_visual_studio_common_tools_path_finder

open c_visual_studio_common_tools_path_finder in
/-- C3, as the code has it: every location that
FilterFoundPathsToAllWithVisualCppInstalled puts into the validated bin-path
map is the binary directory of a candidate and exists on the filesystem (the
module files are not looked at here); the call returns whenever every
candidate path ends in a separator; and given two candidates of which only the
lower-versioned one has its binary directory present, the resulting map
contains exactly that one location. -/
theorem C3_filter_keeps_existing_directories (kIsWin64 : Bool)
    (env : String → Option wstring) (to_path : wstring → path) (fs_exists : path → Bool)
    (self : c_visual_studio_common_tools_path_finder) :
    (∀ r, FilterFoundPathsToAllWithVisualCppInstalled kIsWin64 env to_path fs_exists self = .ok r →
        ∀ (k : Int) (p : path), (k, p) ∈ r.2.m_found_visual_cpp_bin_paths →
          (k, p) ∈ self.m_found_visual_cpp_bin_paths
          ∨ (fs_exists p = true
              ∧ ∃ s, (k, s) ∈ r.2.m_found_visual_studio_common_tools_paths
                  ∧ p = visualCppBinPath kIsWin64 (to_path s)))
    ∧ ((∀ k s, (k, s) ∈ (FindAllPaths env self).2.m_found_visual_studio_common_tools_paths →
          filename (to_path s) = ".") →
        ∃ r, FilterFoundPathsToAllWithVisualCppInstalled kIsWin64 env to_path fs_exists self
          = .ok r)
    ∧ (∀ (k1 k2 : Int) (s1 s2 : wstring), k1 < k2 →
        self.m_found_visual_studio_common_tools_paths = [(k1, s1), (k2, s2)] →
        self.m_found_visual_cpp_bin_paths = [] →
        filename (to_path s1) = "." → filename (to_path s2) = "." →
        fs_exists (visualCppBinPath kIsWin64 (to_path s1)) = true →
        fs_exists (visualCppBinPath kIsWin64 (to_path s2)) = false →
        FilterFoundPathsToAllWithVisualCppInstalled kIsWin64 env to_path fs_exists self
          = .ok (true, { self with
              m_found_visual_cpp_bin_paths := [(k1, visualCppBinPath kIsWin64 (to_path s1))] })) := by
  refine ⟨?_, ?_, ?_⟩
  · intro r hr k p hp
    simp only [FilterFoundPathsToAllWithVisualCppInstalled] at hr
    split at hr
    · simp only [Except.ok.injEq] at hr
      subst hr
      left
      simpa [FindAllPaths_bin_paths] using hp
    · split at hr
      · simp at hr
      · rename_i bins hloop
        simp only [Except.ok.injEq] at hr
        subst hr
        rcases filter_loop_mem _ _ _ _ _ _ hloop k p hp with h | ⟨h1, s, h2, _, h4⟩
        · left
          simpa [FindAllPaths_bin_paths] using h
        · exact Or.inr ⟨h1, s, h2, h4⟩
  · intro hall
    simp only [FilterFoundPathsToAllWithVisualCppInstalled]
    split
    · exact ⟨_, rfl⟩
    · obtain ⟨out, hout⟩ := filter_loop_ok kIsWin64 to_path fs_exists
        (FindAllPaths env self).2.m_found_visual_studio_common_tools_paths
        (FindAllPaths env self).2.m_found_visual_cpp_bin_paths hall
      rw [hout]
      exact ⟨_, rfl⟩
  · intro k1 k2 s1 s2 _ hc hb h1 h2 h3 h4
    have hfind : FindAllPaths env self = (true, self) := by
      simp [FindAllPaths, hc]
    simp [FilterFoundPathsToAllWithVisualCppInstalled, hfind, hc, hb, filter_loop, h1, h2, h3,
      h4, try_emplace]

open c_visual_studio_common_tools_path_finder in
/-- C3 witness: on a 64-bit host, the candidates 110 and 140 of which only the
first has its binary directory on the filesystem. -/
theorem C3_filter_keeps_existing_directories_witness :
    FilterFoundPathsToAllWithVisualCppInstalled true (env_of []) sample_to_path
        (fs_of [["C:", "/", "VS11", "VC", "bin", "amd64"]])
        { m_found_no_paths := false
          m_found_visual_studio_common_tools_paths :=
            [(110, "C:/VS11/Common7/Tools/"), (140, "C:/VS14/Common7/Tools/")]
          m_found_visual_cpp_bin_paths := [] }
      = .ok (true,
          { m_found_no_paths := false
            m_found_visual_studio_common_tools_paths :=
              [(110, "C:/VS11/Common7/Tools/"), (140, "C:/VS14/Common7/Tools/")]
            m_found_visual_cpp_bin_paths :=
              [(110, visualCppBinPath true (sample_to_path "C:/VS11/Common7/Tools/"))] }) :=
  (C3_filter_keeps_existing_directories true (env_of []) sample_to_path
    (fs_of [["C:", "/", "VS11", "VC", "bin", "amd64"]])
    { m_found_no_paths := false
      m_found_visual_studio_common_tools_paths :=
        [(110, "C:/VS11/Common7/Tools/"), (140, "C:/VS14/Common7/Tools/")]
      m_found_visual_cpp_bin_paths := [] }).2.2
    110 140 "C:/VS11/Common7/Tools/" "C:/VS14/Common7/Tools/"
    (by decide) rfl rfl (by decide) (by decide) (by decide) (by decide)

open c_visual_studio_common_tools_path_finder in
/-- C3 fails as stated: on a 64-bit host with VS110COMNTOOLS and
VS140COMNTOOLS set, the installation 11 complete and of the installation 14
only the directory VC/bin/amd64 present, without c1.dll and 1033/clui.dll, the
validated map holds both locations, the one of 140 included, so not exactly
the lower-versioned one; Setup then takes the location of 140 and fails. -/
theorem C3_counterexample :
    FilterFoundPathsToAllWithVisualCppInstalled true
        (env_of [("VS110COMNTOOLS", "C:/VS11/Common7/Tools/"),
                 ("VS140COMNTOOLS", "C:/VS14/Common7/Tools/")])
        sample_to_path
        (fs_of [["C:", "/", "VS11", "VC", "bin", "amd64"],
                ["C:", "/", "VS11", "VC", "bin", "amd64", "c1.dll"],
                ["C:", "/", "VS11", "VC", "bin", "amd64", "1033", "clui.dll"],
                ["C:", "/", "VS14", "VC", "bin", "amd64"]])
        new
      = .ok (true,
          { m_found_no_paths := false
            m_found_visual_studio_common_tools_paths :=
              [(110, "C:/VS11/Common7/Tools/"), (140, "C:/VS14/Common7/Tools/")]
            m_found_visual_cpp_bin_paths :=
              [(110, ["C:", "/", "VS11", "VC", "bin", "amd64"]),
               (140, ["C:", "/", "VS14", "VC", "bin", "amd64"])] })
    ∧ fs_of [["C:", "/", "VS11", "VC", "bin", "amd64"],
             ["C:", "/", "VS11", "VC", "bin", "amd64", "c1.dll"],
             ["C:", "/", "VS11", "VC", "bin", "amd64", "1033", "clui.dll"],
             ["C:", "/", "VS14", "VC", "bin", "amd64"]]
          (append ["C:", "/", "VS14", "VC", "bin", "amd64"] "c1.dll") = false
    ∧ fs_of [["C:", "/", "VS11", "VC", "bin", "amd64"],
             ["C:", "/", "VS11", "VC", "bin", "amd64", "c1.dll"],
             ["C:", "/", "VS11", "VC", "bin", "amd64", "1033", "clui.dll"],
             ["C:", "/", "VS14", "VC", "bin", "amd64"]]
          (append (append ["C:", "/", "VS14", "VC", "bin", "amd64"] "1033") "clui.dll") = false
    ∧ (c_visual_cpp_bin_interface.Setup
          { m_found_no_paths := false
            m_found_visual_studio_common_tools_paths :=
              [(110, "C:/VS11/Common7/Tools/"), (140, "C:/VS14/Common7/Tools/")]
            m_found_visual_cpp_bin_paths :=
              [(110, ["C:", "/", "VS11", "VC", "bin", "amd64"]),
               (140, ["C:", "/", "VS14", "VC", "bin", "amd64"])] }
          (fs_of [["C:", "/", "VS11", "VC", "bin", "amd64"],
                  ["C:", "/", "VS11", "VC", "bin", "amd64", "c1.dll"],
                  ["C:", "/", "VS11", "VC", "bin", "amd64", "1033", "clui.dll"],
                  ["C:", "/", "VS14", "VC", "bin", "amd64"]])
          c_visual_cpp_bin_interface.new).1 = false := by
  decide

open c_visual_studio_common_tools_path_finder in
/-- C10: for an installation path whose elements are those of R followed by
Common7, Tools and the final separator, the assertion on the final separator
holds, the three parent_path steps lead to R, and the binary directory is R,
VC, bin on a 32-bit host and R, VC, bin, amd64 on a 64-bit host; when that
directory exists it is what the loop of
FilterFoundPathsToAllWithVisualCppInstalled enters under the key of the
candidate. -/
theorem C10_bin_path_derivation (to_path : wstring → path) (fs_exists : path → Bool)
    (k : Int) (s : wstring) (R : path)
    (hform : to_path s = R ++ ["Common7", "Tools", "."]) :
    filename (to_path s) = "."
    ∧ parent_path (parent_path (parent_path (to_path s))) = R
    ∧ visualCppBinPath false (to_path s) = R ++ ["VC", "bin"]
    ∧ visualCppBinPath true (to_path s) = R ++ ["VC", "bin", "amd64"]
    ∧ ∀ kIsWin64 : Bool, fs_exists (visualCppBinPath kIsWin64 (to_path s)) = true →
        filter_loop kIsWin64 to_path fs_exists [(k, s)] []
          = .ok [(k, R ++ ["VC", "bin"] ++ (if kIsWin64 then ["amd64"] else []))] := by
  have hname : filename (to_path s) = "." := by
    rw [hform]; simp [filename]
  have hparent : parent_path (parent_path (parent_path (to_path s))) = R := by
    rw [hform]
    have e : R ++ ["Common7", "Tools", "."] = ((R ++ ["Common7"]) ++ ["Tools"]) ++ ["."] := by
      simp
    rw [e]
    simp only [parent_path, List.dropLast_concat]
  have h32 : visualCppBinPath false (to_path s) = R ++ ["VC", "bin"] := by
    simp [visualCppBinPath, hparent, append]
  have h64 : visualCppBinPath true (to_path s) = R ++ ["VC", "bin", "amd64"] := by
    simp [visualCppBinPath, hparent, append]
  refine ⟨hname, hparent, h32, h64, ?_⟩
  intro w hex
  cases w
  · rw [h32] at hex
    simp [filter_loop, hname, hex, try_emplace, h32]
  · rw [h64] at hex
    simp [filter_loop, hname, hex, try_emplace, h64]

open c_visual_studio_common_tools_path_finder in
/-- C10 witness: the installation path C:/VS11/Common7/Tools/. -/
theorem C10_bin_path_derivation_witness :
    sample_to_path "C:/VS11/Common7/Tools/" = ["C:", "/", "VS11"] ++ ["Common7", "Tools", "."]
    ∧ visualCppBinPath false (sample_to_path "C:/VS11/Common7/Tools/")
        = ["C:", "/", "VS11"] ++ ["VC", "bin"]
    ∧ visualCppBinPath true (sample_to_path "C:/VS11/Common7/Tools/")
        = ["C:", "/", "VS11"] ++ ["VC", "bin", "amd64"] :=
  ⟨by decide,
    (C10_bin_path_derivation sample_to_path (fs_of []) 110 "C:/VS11/Common7/Tools/"
      ["C:", "/", "VS11"] (by decide)).2.2.1,
    (C10_bin_path_derivation sample_to_path (fs_of []) 110 "C:/VS11/Common7/Tools/"
      ["C:", "/", "VS11"] (by decide)).2.2.2.1⟩

end InvokeCompilerPass
